import Mathlib

/-!
Shallow embedding of the dicether/verifier repository.

The verification core is `verifyBets` in `src/index.js` (the later protocol
variant; `src/unnamed/part_000` is the earlier one).  The external
`@dicether/state-channel` primitives (`keccak`, `verifySignature`,
`calcResultNumber`, `calcNewBalance`) are library code outside this
repository, so they are modelled as an abstract record of pure functions
(`Prims`) passed to the verifier.  JavaScript `throw` is modelled by
`Except`: each throw site becomes a constructor of `VErr` carrying exactly
the data interpolated into the thrown message, and `VErr.message`
reproduces the JavaScript message strings verbatim.  The in-place
`bets.reverse()` mutation of the caller's array is modelled by returning
the final state of the array alongside the verdict (`verifyBetsRun`).
-/

namespace Verifier

/-- The `signedBetData` object built in `verifyBets` (`src/index.js` lines
109-118): exactly the eight fields covered by the signatures. -/
structure SignedBetData where
  roundId : Int
  gameType : Int
  num : Int
  value : Int
  balance : Int
  serverHash : String
  userHash : String
  gameId : Int
deriving DecidableEq

/-- One bet record as consumed by `verifyBets` in `src/index.js`
(fields read from the backend-delivered `bet` object; `userAddress`
models `bet.user.address`). -/
structure Bet where
  roundId : Int
  gameType : Int
  num : Int
  value : Int
  balance : Int
  serverHash : String
  userHash : String
  serverSeed : String
  userSeed : String
  resultNum : Int
  serverSig : String
  userSig : String
  gameId : Int
  userAddress : String
deriving DecidableEq

/-- The external `@dicether/state-channel` library primitives used by
`verifyBets`.  `verifySignature` takes the signed payload, the chain id,
the contract address, the signature, the signer address and an optional
encoding version (`src/index.js` omits the version argument, modelled as
`none`).  `calcResultNumber` takes an optional `num` argument
(`src/index.js` passes it, the older variant omits it). -/
structure Prims where
  keccak : String → String
  verifySignature : SignedBetData → Int → String → String → String → Option Int → Bool
  calcResultNumber : Int → String → String → Option Int → Int
  calcNewBalance : Int → Int → Int → String → String → Int → Int

/-- Every throw site of `verifyBets`, carrying exactly the data the
JavaScript code interpolates into the thrown message.
`typeErrorUndefinedRead` models the implicit TypeError raised by
`firstBet.serverHash` when `bets` is empty at `src/index.js` line 92. -/
inductive VErr where
  | invalidNumBets (expected got : Int)
  | invalidFirstServerHash
  | invalidFirstUserHash
  | invalidServerSig (roundId : Int)
  | invalidPlayerSig (roundId : Int)
  | invalidUserSeed (roundId : Int)
  | invalidServerSeed (roundId : Int)
  | invalidHashChain
  | invalidNumber (got should : Int)
  | invalidBalance (got finalBalance : Int)
  | invalidSessionBalance (prevBalance finalBalance : Int)
  | typeErrorUndefinedRead
deriving DecidableEq

deriving instance DecidableEq for Except

/-- The JavaScript message string of each thrown error, verbatim from
`src/index.js` (including the swapped Expected/Got labels at line 78 and
the missing space at line 156). -/
def VErr.message : VErr → String
  | .invalidNumBets e g => "Invalid number of bets! Expected: " ++ toString e ++ " Got: " ++ toString g
  | .invalidFirstServerHash => "Invalid first bet serverHash"
  | .invalidFirstUserHash => "Invalid first bet user Hash"
  | .invalidServerSig r => "Invalid server signature for bet with roundId: " ++ toString r
  | .invalidPlayerSig r => "Invalid player signature for bet with roundId: " ++ toString r
  | .invalidUserSeed r => "Invalid user seed for bet with roundId: " ++ toString r
  | .invalidServerSeed r => "Invalid server seed for bet with roundId: " ++ toString r
  | .invalidHashChain => "Invalid hash chain!"
  | .invalidNumber g s => "Invalid number " ++ toString g ++ " instead of" ++ toString s
  | .invalidBalance g b => "Invalid balance " ++ toString g ++ " instead of " ++ toString b
  | .invalidSessionBalance p b => "Invalid game session balance " ++ toString p ++ " instead of " ++ toString b
  | .typeErrorUndefinedRead => "TypeError: Cannot read properties of undefined (reading serverHash)"

/-- Constant `CHAIN_ID` (`src/index.js` line 20). -/
def CHAIN_ID : Int := 1

/-- Constant `CONTRACT_ADDRESS_OLD` (`src/index.js` line 7). -/
def CONTRACT_ADDRESS_OLD : String := "0xaEc1F783B29Aab2727d7C374Aa55483fe299feFa"

/-- Constant `SERVER_ADDRESS_OLD` (`src/index.js` line 10). -/
def SERVER_ADDRESS_OLD : String := "0xCef260a5Fed7A896BBE07b933B3A5c17aEC094D8"

/-- Constant `CONTRACT_ADDRESS` (`src/index.js` line 12). -/
def CONTRACT_ADDRESS : String := "0xa867bF8447eC6f614EA996057e3D769b76a8aa0e"

/-- Constant `SERVER_ADDRESS` (`src/index.js` line 15). -/
def SERVER_ADDRESS : String := "0x437EC7503dFF1b5F5Ab4Dab4455C45a270629f4d"

/-- Constant `GAME_ID_CONTRACT_CHANGED` (`src/index.js` line 17). -/
def GAME_ID_CONTRACT_CHANGED : Int := 5246

/-- The era selection performed by `verifyGameSession` in `src/index.js`
lines 184-195: contract address and server address by game-id threshold. -/
def contractServerFor (gameId : Int) : String × String :=
  if gameId ≥ GAME_ID_CONTRACT_CHANGED then (CONTRACT_ADDRESS, SERVER_ADDRESS)
  else (CONTRACT_ADDRESS_OLD, SERVER_ADDRESS_OLD)

/-- The `signedBetData` object built from a bet (`src/index.js` lines
109-118). -/
def signedDataOf (bet : Bet) : SignedBetData :=
  { roundId := bet.roundId, gameType := bet.gameType, num := bet.num,
    value := bet.value, balance := bet.balance, serverHash := bet.serverHash,
    userHash := bet.userHash, gameId := bet.gameId }

/-- The server-signature check of `src/index.js` line 121. -/
def sigOkServer (p : Prims) (contractAddress serverAddress : String) (bet : Bet) : Bool :=
  p.verifySignature (signedDataOf bet) CHAIN_ID contractAddress bet.serverSig serverAddress none

/-- The player-signature check of `src/index.js` line 125. -/
def sigOkUser (p : Prims) (contractAddress : String) (bet : Bet) : Bool :=
  p.verifySignature (signedDataOf bet) CHAIN_ID contractAddress bet.userSig bet.userAddress none

/-- The user-seed commitment check of `src/index.js` line 130. -/
def seedOkUser (p : Prims) (bet : Bet) : Bool :=
  p.keccak bet.userSeed == bet.userHash

/-- The server-seed commitment check of `src/index.js` line 134. -/
def seedOkServer (p : Prims) (bet : Bet) : Bool :=
  p.keccak bet.serverSeed == bet.serverHash

/-- The user-side hash-chain-link condition of `src/index.js` line 140.
`prev = none` encodes the first iteration (`i === 0`), where the check is
skipped. -/
def chainUserBad (p : Prims) (prev : Option (String × String)) (bet : Bet) : Bool :=
  match prev with
  | none => false
  | some (userPrevHash, _) => p.keccak bet.userHash != userPrevHash

/-- The server-side hash-chain-link condition of `src/index.js` line 144. -/
def chainServerBad (p : Prims) (prev : Option (String × String)) (bet : Bet) : Bool :=
  match prev with
  | none => false
  | some (_, serverPrevHash) => p.keccak bet.serverHash != serverPrevHash

/-- The result-number check of `src/index.js` lines 154-155. -/
def outcomeOk (p : Prims) (bet : Bet) : Bool :=
  bet.resultNum == p.calcResultNumber bet.gameType bet.serverSeed bet.userSeed (some bet.num)

/-- The per-bet loop of `verifyBets` (`src/index.js` lines 104-166),
in chronological order: server signature, player signature, user seed,
server seed, user chain link, server chain link, result number, balance,
then recurse with the updated previous hashes and running balance.
`balance` is the session's settled balance, interpolated (as in the
source) into the balance-mismatch message. -/
def betLoop (p : Prims) (contractAddress serverAddress : String) (balance : Int) :
    Option (String × String) → Int → List Bet → Except VErr Int
  | _, prevBalance, [] => .ok prevBalance
  | prev, prevBalance, bet :: rest =>
    if !sigOkServer p contractAddress serverAddress bet then
      .error (.invalidServerSig bet.roundId)
    else if !sigOkUser p contractAddress bet then
      .error (.invalidPlayerSig bet.roundId)
    else if !seedOkUser p bet then
      .error (.invalidUserSeed bet.roundId)
    else if !seedOkServer p bet then
      .error (.invalidServerSeed bet.roundId)
    else if chainUserBad p prev bet then
      .error .invalidHashChain
    else if chainServerBad p prev bet then
      .error .invalidHashChain
    else if !outcomeOk p bet then
      .error (.invalidNumber bet.resultNum
        (p.calcResultNumber bet.gameType bet.serverSeed bet.userSeed (some bet.num)))
    else if bet.balance != prevBalance then
      .error (.invalidBalance bet.balance balance)
    else
      betLoop p contractAddress serverAddress balance
        (some (bet.userHash, bet.serverHash))
        (p.calcNewBalance bet.gameType bet.num bet.value bet.serverSeed bet.userSeed prevBalance)
        rest

/-- Function `verifyBets` of `src/index.js` lines 74-174, together with the final
state of the caller's `bets` array (JavaScript `bets.reverse()` at line 87
reverses the array in place, so the caller observes the reversed list
whenever execution reaches that line). -/
def verifyBetsRun (p : Prims) (gameId : Int) (bets : List Bet) (roundId balance : Int)
    (serverEndHash userEndHash : String) (regularEnded : Bool)
    (contractAddress serverAddress : String) : Except VErr Bool × List Bet :=
  let numBets : Int := roundId - (if regularEnded then 1 else 0)
  if (bets.length : Int) != numBets then
    (.error (.invalidNumBets bets.length numBets), bets)
  else if roundId == 0 then
    (.ok true, bets)
  else
    match bets.reverse with
    | [] => (.error .typeErrorUndefinedRead, bets.reverse)
    | firstBet :: rest =>
      if serverEndHash != firstBet.serverHash then
        (.error .invalidFirstServerHash, firstBet :: rest)
      else if userEndHash != firstBet.userHash then
        (.error .invalidFirstUserHash, firstBet :: rest)
      else
        match betLoop p contractAddress serverAddress balance none 0 (firstBet :: rest) with
        | .error e => (.error e, firstBet :: rest)
        | .ok prevBalance =>
          if regularEnded && (balance != prevBalance) then
            (.error (.invalidSessionBalance prevBalance balance), firstBet :: rest)
          else
            (.ok true, firstBet :: rest)

/-- The verdict of `verifyBets`: `.ok` for a JavaScript `return`,
`.error` for a JavaScript `throw`. -/
def verifyBets (p : Prims) (gameId : Int) (bets : List Bet) (roundId balance : Int)
    (serverEndHash userEndHash : String) (regularEnded : Bool)
    (contractAddress serverAddress : String) : Except VErr Bool :=
  (verifyBetsRun p gameId bets roundId balance serverEndHash userEndHash regularEnded
    contractAddress serverAddress).1

/-- The state of the caller's `bets` array after `verifyBets` returns or
throws (JavaScript `Array.prototype.reverse` mutates in place). -/
def betsAfterVerify (p : Prims) (gameId : Int) (bets : List Bet) (roundId balance : Int)
    (serverEndHash userEndHash : String) (regularEnded : Bool)
    (contractAddress serverAddress : String) : List Bet :=
  (verifyBetsRun p gameId bets roundId balance serverEndHash userEndHash regularEnded
    contractAddress serverAddress).2

/-! Spec-shaped predicates over a chronologically ordered record list
(`bets.reverse`, earliest first), used to state the claims. -/

/-- Every record's revealed seeds hash to its declared commitments. -/
def seedsOk (p : Prims) (records : List Bet) : Bool :=
  records.all fun bet => seedOkUser p bet && seedOkServer p bet

/-- The earliest record's declared commitments equal the session's
published chain heads (false on an empty list, where there is no earliest
record). -/
def anchorOk (serverEndHash userEndHash : String) : List Bet → Bool
  | [] => false
  | firstBet :: _ =>
    serverEndHash == firstBet.serverHash && userEndHash == firstBet.userHash

/-- Every adjacent pair of records is hash-chain linked on both sides:
hashing the later record's commitment reproduces the earlier record's
commitment. -/
def chainLinks (p : Prims) : List Bet → Bool
  | [] => true
  | [_] => true
  | a :: b :: rest =>
    (p.keccak b.userHash == a.userHash) && (p.keccak b.serverHash == a.serverHash)
      && chainLinks p (b :: rest)

/-- Every record's declared `resultNum` equals the recomputed outcome. -/
def outcomesOk (p : Prims) (records : List Bet) : Bool :=
  records.all fun bet => outcomeOk p bet

/-- Both signatures of every record validate (server signature against
the supplied server address, user signature against the record's own
user address). -/
def sigsOk (p : Prims) (contractAddress serverAddress : String) (records : List Bet) : Bool :=
  records.all fun bet => sigOkServer p contractAddress serverAddress bet && sigOkUser p contractAddress bet

/-- All per-bet checks except the balance check, with the hash-chain
state threaded exactly as in the loop. -/
def nonBalanceChecksOk (p : Prims) (contractAddress serverAddress : String) :
    Option (String × String) → List Bet → Bool
  | _, [] => true
  | prev, bet :: rest =>
    sigOkServer p contractAddress serverAddress bet && sigOkUser p contractAddress bet
      && seedOkUser p bet && seedOkServer p bet
      && !chainUserBad p prev bet && !chainServerBad p prev bet
      && outcomeOk p bet
      && nonBalanceChecksOk p contractAddress serverAddress
           (some (bet.userHash, bet.serverHash)) rest

/-- Replaying from `prevBalance`, each record's declared pre-round balance
equals the running balance, which advances via `calcNewBalance`. -/
def balancesOk (p : Prims) : Int → List Bet → Bool
  | _, [] => true
  | prevBalance, bet :: rest =>
    bet.balance == prevBalance
      && balancesOk p
           (p.calcNewBalance bet.gameType bet.num bet.value bet.serverSeed bet.userSeed prevBalance)
           rest

/-- The running balance after replaying all records from `prevBalance`
via `calcNewBalance`. -/
def foldBalance (p : Prims) : Int → List Bet → Int
  | prevBalance, [] => prevBalance
  | prevBalance, bet :: rest =>
    foldBalance p
      (p.calcNewBalance bet.gameType bet.num bet.value bet.serverSeed bet.userSeed prevBalance)
      rest

/-! Era resolution of the earlier variant (`src/unnamed/part_000`). -/

/-- Constant `CONTRACT_ADDRESS2` (`src/unnamed/part_000` line 7). -/
def CONTRACT_ADDRESS2 : String := "0xbF8B9092e809DE87932B28ffaa00D520b04359aA"

/-- Constant `CONTRACT_ADDRESS3` (`src/unnamed/part_000` line 8). -/
def CONTRACT_ADDRESS3 : String := "0x3e07881993c7542a6Da9025550B54331474b21dd"

/-- Constant `CONTRACT_ADDRESS4` (`src/unnamed/part_000` line 9). -/
def CONTRACT_ADDRESS4 : String := "0xEB6F4eC38A347110941E86e691c2ca03e271dF3b"

/-- Constant `SERVER_ADDRESS` of `src/unnamed/part_000` line 12 (the single house
signer address of the earlier variant). -/
def SERVER_ADDRESS_P0 : String := "0xCef260a5Fed7A896BBE07b933B3A5c17aEC094D8"

/-- Constant `NEW_EIP_GAME_ID` (`src/unnamed/part_000` line 14). -/
def NEW_EIP_GAME_ID : Int := 572

/-- Constant `OLD_EIP_GAME_ID` (`src/unnamed/part_000` line 15). -/
def OLD_EIP_GAME_ID : Int := 638

/-- Function `getContractAddress` of `src/unnamed/part_000` lines 28-38. -/
def getContractAddress (gameId : Int) : Except String String :=
  if gameId < 256 then
    .error "Verification not supported for games below game id 256!"
  else if gameId < 572 then
    .ok CONTRACT_ADDRESS2
  else if gameId < 638 then
    .ok CONTRACT_ADDRESS3
  else
    .ok CONTRACT_ADDRESS4

/-- Function `getSignatureVersion` of `src/unnamed/part_000` lines 42-44. -/
def getSignatureVersion (gameId : Int) : Int :=
  if gameId < NEW_EIP_GAME_ID ∨ gameId ≥ OLD_EIP_GAME_ID then 1 else 2

/-- A protocol era: contract identity, server identity, signature
encoding version. -/
structure Era where
  contractAddress : String
  serverAddress : String
  signatureVersion : Int
deriving DecidableEq

/-- Era resolution of the earlier variant: `getContractAddress` selects
the contract (failing below game id 256), the server address is the fixed
`SERVER_ADDRESS` and `getSignatureVersion` selects the encoding. -/
def resolveEra (gameId : Int) : Except String Era :=
  match getContractAddress gameId with
  | .error e => .error e
  | .ok contractAddress =>
    .ok ⟨contractAddress, SERVER_ADDRESS_P0, getSignatureVersion gameId⟩

/-- The era thresholds of `getContractAddress`/`getSignatureVersion` as an
explicit table: lower bound (inclusive), upper bound (exclusive, `none`
for unbounded), era. -/
def eraTable : List (Int × Option Int × Era) :=
  [(256, some 572, ⟨CONTRACT_ADDRESS2, SERVER_ADDRESS_P0, 1⟩),
   (572, some 638, ⟨CONTRACT_ADDRESS3, SERVER_ADDRESS_P0, 2⟩),
   (638, none, ⟨CONTRACT_ADDRESS4, SERVER_ADDRESS_P0, 1⟩)]

/-- Membership of a game id in a threshold interval `[lo, hi)`. -/
def inThreshold (lo : Int) (hi : Option Int) (gameId : Int) : Bool :=
  decide (lo ≤ gameId) && (match hi with | none => true | some h => decide (gameId < h))

/-! Concrete test fixtures: toy primitives and a small consistent
session, used by witnesses and counterexamples. -/

/-- Toy primitives: the hash prepends `"h"`, every signature validates,
every outcome is `7`, every bet adds `10` to the balance. -/
def pTest : Prims where
  keccak := fun s => "h" ++ s
  verifySignature := fun _ _ _ _ _ _ => true
  calcResultNumber := fun _ _ _ _ => 7
  calcNewBalance := fun _ _ _ _ _ prevBalance => prevBalance + 10

/-- Chronologically first bet of the consistent two-bet test session. -/
def betA : Bet :=
  { roundId := 1, gameType := 1, num := 50, value := 100, balance := 0,
    serverHash := "hhs", userHash := "hhu", serverSeed := "hs", userSeed := "hu",
    resultNum := 7, serverSig := "sigSA", userSig := "sigUA",
    gameId := 300, userAddress := "0xUserA" }

/-- Chronologically second bet of the consistent two-bet test session. -/
def betB : Bet :=
  { roundId := 2, gameType := 1, num := 50, value := 100, balance := 10,
    serverHash := "hs", userHash := "hu", serverSeed := "s", userSeed := "u",
    resultNum := 7, serverSig := "sigSB", userSig := "sigUB",
    gameId := 300, userAddress := "0xUserA" }

/-- The consistent test session as delivered by the backend
(newest-first order). -/
def betsNewestFirst : List Bet := [betB, betA]

/-- The second bet with the server-side commitment replaced: its seed
still matches its commitment, but re-hashing its commitment no longer
reproduces the first bet's commitment (server-side chain break at
round 2). -/
def betBServerBreak : Bet :=
  { betB with serverHash := "hx", serverSeed := "x" }

/-- The second bet with the user-side commitment replaced (user-side
chain break at round 2). -/
def betBUserBreak : Bet :=
  { betB with userHash := "hy", userSeed := "y" }

/-- Chronologically third bet of a consistent three-bet chain, with the
user-side commitment replaced (user-side chain break at round 3). -/
def betC3UserBreak : Bet :=
  { roundId := 3, gameType := 1, num := 50, value := 100, balance := 20,
    serverHash := "hs", userHash := "hv", serverSeed := "s", userSeed := "v",
    resultNum := 7, serverSig := "sigSC", userSig := "sigUC",
    gameId := 300, userAddress := "0xUserA" }

/-- Chronologically second bet of the three-bet chain. -/
def betB3 : Bet :=
  { roundId := 2, gameType := 1, num := 50, value := 100, balance := 10,
    serverHash := "hhs", userHash := "hhu", serverSeed := "hs", userSeed := "hu",
    resultNum := 7, serverSig := "sigSB", userSig := "sigUB",
    gameId := 300, userAddress := "0xUserA" }

/-- Chronologically first bet of the three-bet chain. -/
def betA3 : Bet :=
  { roundId := 1, gameType := 1, num := 50, value := 100, balance := 0,
    serverHash := "hhhs", userHash := "hhhu", serverSeed := "hhs", userSeed := "hhu",
    resultNum := 7, serverSig := "sigSA", userSig := "sigUA",
    gameId := 300, userAddress := "0xUserA" }

/-! Loop lemmas. -/

/-- Unfolding equation of `betLoop` on the empty list. -/
theorem betLoop_nil (p : Prims) (ca sa : String) (bal : Int)
    (prev : Option (String × String)) (prevB : Int) :
    betLoop p ca sa bal prev prevB [] = .ok prevB := rfl

/-- Unfolding equation of `betLoop` on a cons cell. -/
theorem betLoop_cons (p : Prims) (ca sa : String) (bal : Int)
    (prev : Option (String × String)) (prevB : Int) (bet : Bet) (rest : List Bet) :
    betLoop p ca sa bal prev prevB (bet :: rest) =
      (if !sigOkServer p ca sa bet then
        .error (.invalidServerSig bet.roundId)
      else if !sigOkUser p ca bet then
        .error (.invalidPlayerSig bet.roundId)
      else if !seedOkUser p bet then
        .error (.invalidUserSeed bet.roundId)
      else if !seedOkServer p bet then
        .error (.invalidServerSeed bet.roundId)
      else if chainUserBad p prev bet then
        .error .invalidHashChain
      else if chainServerBad p prev bet then
        .error .invalidHashChain
      else if !outcomeOk p bet then
        .error (.invalidNumber bet.resultNum
          (p.calcResultNumber bet.gameType bet.serverSeed bet.userSeed (some bet.num)))
      else if bet.balance != prevB then
        .error (.invalidBalance bet.balance bal)
      else
        betLoop p ca sa bal (some (bet.userHash, bet.serverHash))
          (p.calcNewBalance bet.gameType bet.num bet.value bet.serverSeed bet.userSeed prevB)
          rest) := rfl

/-- The loop returns `.ok r` exactly when every non-balance check and the
balance replay succeed, and then `r` is the replayed final balance. -/
theorem betLoop_ok_iff (p : Prims) (ca sa : String) (bal : Int) :
    ∀ (cs : List Bet) (prev : Option (String × String)) (prevB r : Int),
      betLoop p ca sa bal prev prevB cs = .ok r ↔
        (nonBalanceChecksOk p ca sa prev cs = true ∧ balancesOk p prevB cs = true
          ∧ foldBalance p prevB cs = r) := by
  intro cs
  induction cs with
  | nil =>
    intro prev prevB r
    simp [betLoop_nil, nonBalanceChecksOk, balancesOk, foldBalance, eq_comm]
  | cons bet rest ih =>
    intro prev prevB r
    rw [betLoop_cons]
    cases h1 : sigOkServer p ca sa bet
    · simp [nonBalanceChecksOk, h1]
    cases h2 : sigOkUser p ca bet
    · simp [nonBalanceChecksOk, h1, h2]
    cases h3 : seedOkUser p bet
    · simp [nonBalanceChecksOk, h1, h2, h3]
    cases h4 : seedOkServer p bet
    · simp [nonBalanceChecksOk, h1, h2, h3, h4]
    cases h5 : chainUserBad p prev bet
    case true => simp [nonBalanceChecksOk, h1, h2, h3, h4, h5]
    cases h6 : chainServerBad p prev bet
    case true => simp [nonBalanceChecksOk, h1, h2, h3, h4, h5, h6]
    cases h7 : outcomeOk p bet
    · simp [nonBalanceChecksOk, h1, h2, h3, h4, h5, h6, h7]
    cases h8 : bet.balance == prevB
    · simp [nonBalanceChecksOk, balancesOk, h1, h2, h3, h4, h5, h6, h7, h8, bne]
    · simp only [nonBalanceChecksOk, balancesOk, foldBalance,
        h1, h2, h3, h4, h5, h6, h7, h8, bne, Bool.not_false, Bool.not_true,
        Bool.true_and, Bool.and_self, if_false, if_true, Bool.false_eq_true,
        ite_false, ite_true]
      simpa using ih (some (bet.userHash, bet.serverHash))
        (p.calcNewBalance bet.gameType bet.num bet.value bet.serverSeed bet.userSeed prevB) r

/-- The loop never produces the count-mismatch error (that error is
raised before the loop only). -/
theorem betLoop_no_numBets (p : Prims) (ca sa : String) (bal : Int) :
    ∀ (cs : List Bet) (prev : Option (String × String)) (prevB e g : Int),
      betLoop p ca sa bal prev prevB cs ≠ .error (.invalidNumBets e g) := by
  intro cs
  induction cs with
  | nil => intro prev prevB e g h; simp [betLoop_nil] at h
  | cons bet rest ih =>
    intro prev prevB e g h
    rw [betLoop_cons] at h
    cases h1 : sigOkServer p ca sa bet <;> simp [h1] at h
    cases h2 : sigOkUser p ca bet <;> simp [h2] at h
    cases h3 : seedOkUser p bet <;> simp [h3] at h
    cases h4 : seedOkServer p bet <;> simp [h4] at h
    cases h5 : chainUserBad p prev bet <;> simp [h5] at h
    cases h6 : chainServerBad p prev bet <;> simp [h6] at h
    cases h7 : outcomeOk p bet <;> simp [h7] at h
    split at h
    · exact ih _ _ e g h
    · simp at h

/-- If every non-balance check passes but the balance replay fails, the
loop raises the balance-mismatch error (whose second component is the
session's settled balance, as interpolated by the source). -/
theorem betLoop_balance_err (p : Prims) (ca sa : String) (bal : Int) :
    ∀ (cs : List Bet) (prev : Option (String × String)) (prevB : Int),
      nonBalanceChecksOk p ca sa prev cs = true →
      balancesOk p prevB cs = false →
      ∃ d, betLoop p ca sa bal prev prevB cs = .error (.invalidBalance d bal) := by
  intro cs
  induction cs with
  | nil => intro prev prevB _ hb; simp [balancesOk] at hb
  | cons bet rest ih =>
    intro prev prevB hn hb
    rw [nonBalanceChecksOk] at hn
    simp only [Bool.and_eq_true, Bool.not_eq_true'] at hn
    obtain ⟨⟨⟨⟨⟨⟨⟨h1, h2⟩, h3⟩, h4⟩, h5⟩, h6⟩, h7⟩, h8⟩ := hn
    rw [betLoop_cons]
    rw [balancesOk] at hb
    simp only [Bool.and_eq_false_iff] at hb
    cases h9 : bet.balance == prevB
    · exact ⟨bet.balance, by simp [h1, h2, h3, h4, h5, h6, h7, h9, bne]⟩
    · have hbrest : balancesOk p
          (p.calcNewBalance bet.gameType bet.num bet.value bet.serverSeed bet.userSeed prevB)
          rest = false := by
        rcases hb with hb | hb
        · rw [h9] at hb; cases hb
        · exact hb
      obtain ⟨d, hd⟩ := ih (some (bet.userHash, bet.serverHash))
        (p.calcNewBalance bet.gameType bet.num bet.value bet.serverSeed bet.userSeed prevB)
        h8 hbrest
      exact ⟨d, by simp [h1, h2, h3, h4, h5, h6, h7, h9, bne, hd]⟩

/-- Passing all non-balance checks implies every seed matches its
declared commitment. -/
theorem nonBalance_seedsOk (p : Prims) (ca sa : String) :
    ∀ (cs : List Bet) (prev : Option (String × String)),
      nonBalanceChecksOk p ca sa prev cs = true → seedsOk p cs = true := by
  intro cs
  induction cs with
  | nil => intro prev _; rfl
  | cons bet rest ih =>
    intro prev hn
    rw [nonBalanceChecksOk] at hn
    simp only [Bool.and_eq_true] at hn
    obtain ⟨⟨⟨⟨⟨⟨⟨h1, h2⟩, h3⟩, h4⟩, h5⟩, h6⟩, h7⟩, h8⟩ := hn
    have := ih (some (bet.userHash, bet.serverHash)) h8
    simp only [seedsOk, List.all_cons, Bool.and_eq_true] at this ⊢
    exact ⟨⟨h3, h4⟩, this⟩

/-- Passing all non-balance checks implies both signatures of every
record validate. -/
theorem nonBalance_sigsOk (p : Prims) (ca sa : String) :
    ∀ (cs : List Bet) (prev : Option (String × String)),
      nonBalanceChecksOk p ca sa prev cs = true → sigsOk p ca sa cs = true := by
  intro cs
  induction cs with
  | nil => intro prev _; rfl
  | cons bet rest ih =>
    intro prev hn
    rw [nonBalanceChecksOk] at hn
    simp only [Bool.and_eq_true] at hn
    obtain ⟨⟨⟨⟨⟨⟨⟨h1, h2⟩, h3⟩, h4⟩, h5⟩, h6⟩, h7⟩, h8⟩ := hn
    have := ih (some (bet.userHash, bet.serverHash)) h8
    simp only [sigsOk, List.all_cons, Bool.and_eq_true] at this ⊢
    exact ⟨⟨h1, h2⟩, this⟩

/-- Passing all non-balance checks implies every declared result number
matches its recomputation. -/
theorem nonBalance_outcomesOk (p : Prims) (ca sa : String) :
    ∀ (cs : List Bet) (prev : Option (String × String)),
      nonBalanceChecksOk p ca sa prev cs = true → outcomesOk p cs = true := by
  intro cs
  induction cs with
  | nil => intro prev _; rfl
  | cons bet rest ih =>
    intro prev hn
    rw [nonBalanceChecksOk] at hn
    simp only [Bool.and_eq_true] at hn
    obtain ⟨⟨⟨⟨⟨⟨⟨h1, h2⟩, h3⟩, h4⟩, h5⟩, h6⟩, h7⟩, h8⟩ := hn
    have := ih (some (bet.userHash, bet.serverHash)) h8
    simp only [outcomesOk, List.all_cons, Bool.and_eq_true] at this ⊢
    exact ⟨h7, this⟩

/-- Passing all non-balance checks implies the interior hash-chain links
hold on both sides. -/
theorem nonBalance_chainLinks (p : Prims) (ca sa : String) :
    ∀ (cs : List Bet) (prev : Option (String × String)),
      nonBalanceChecksOk p ca sa prev cs = true → chainLinks p cs = true := by
  intro cs
  induction cs with
  | nil => intro prev _; rfl
  | cons a rest ih =>
    intro prev hn
    rw [nonBalanceChecksOk] at hn
    simp only [Bool.and_eq_true] at hn
    obtain ⟨⟨⟨⟨⟨⟨⟨h1, h2⟩, h3⟩, h4⟩, h5⟩, h6⟩, h7⟩, h8⟩ := hn
    have hrest := ih (some (a.userHash, a.serverHash)) h8
    cases rest with
    | nil => rfl
    | cons b rest2 =>
      rw [nonBalanceChecksOk] at h8
      simp only [Bool.and_eq_true, Bool.not_eq_true'] at h8
      obtain ⟨⟨⟨⟨⟨⟨⟨g1, g2⟩, g3⟩, g4⟩, g5⟩, g6⟩, g7⟩, g8⟩ := h8
      rw [chainLinks]
      simp only [Bool.and_eq_true]
      refine ⟨⟨?_, ?_⟩, hrest⟩
      · simpa [chainUserBad, bne] using g5
      · simpa [chainServerBad, bne] using g6

/-! Characterization of `verifyBets`. -/

/-- Function `verifyBets` returns `true` exactly when the count check passes and
either no round was played (`roundId = 0`) or the chronologically ordered
records pass the anchor check, all per-bet checks, the balance replay,
and (for a normally ended session) the final-balance comparison. -/
theorem verifyBets_ok_iff (p : Prims) (gameId : Int) (bets : List Bet) (roundId balance : Int)
    (seh ueh : String) (regularEnded : Bool) (ca sa : String) :
    verifyBets p gameId bets roundId balance seh ueh regularEnded ca sa = .ok true ↔
      ((bets.length : Int) = roundId - (if regularEnded then 1 else 0)
        ∧ (roundId = 0
            ∨ (roundId ≠ 0 ∧ anchorOk seh ueh bets.reverse = true
                ∧ nonBalanceChecksOk p ca sa none bets.reverse = true
                ∧ balancesOk p 0 bets.reverse = true
                ∧ (regularEnded = true → balance = foldBalance p 0 bets.reverse)))) := by
  unfold verifyBets verifyBetsRun
  dsimp only
  by_cases hc : (bets.length : Int) = roundId - (if regularEnded then 1 else 0)
  · have hcond1 : ¬((((bets.length : Int) != (roundId - (if regularEnded then 1 else 0)))) = true) := by
      simp [hc]
    rw [if_neg hcond1]
    by_cases hr : roundId = 0
    · rw [if_pos (show (roundId == (0 : Int)) = true by simp [hr])]
      simp [hc, hr]
    · rw [if_neg (show ¬((roundId == (0 : Int)) = true) by simp [hr])]
      cases hrev : bets.reverse with
      | nil =>
        simp [hc, hr, anchorOk]
      | cons f t =>
        dsimp only
        by_cases hs : seh = f.serverHash
        · rw [if_neg (show ¬((seh != f.serverHash) = true) by simp [hs])]
          by_cases hu : ueh = f.userHash
          · rw [if_neg (show ¬((ueh != f.userHash) = true) by simp [hu])]
            cases hloop : betLoop p ca sa balance none 0 (f :: t) with
            | error e =>
              dsimp only
              constructor
              · intro h; exact absurd h (by simp)
              · rintro ⟨-, hr0 | ⟨-, ha, hn, hb, -⟩⟩
                · exact absurd hr0 hr
                · have hok : betLoop p ca sa balance none 0 (f :: t) =
                      .ok (foldBalance p 0 (f :: t)) :=
                    (betLoop_ok_iff p ca sa balance (f :: t) none 0 _).mpr ⟨hn, hb, rfl⟩
                  rw [hloop] at hok
                  exact absurd hok (by simp)
            | ok prevB =>
              dsimp only
              obtain ⟨hn, hb, hf⟩ := (betLoop_ok_iff p ca sa balance (f :: t) none 0 prevB).mp hloop
              by_cases hre : regularEnded = true
              · by_cases hbal : balance = prevB
                · rw [if_neg (show ¬((regularEnded && (balance != prevB)) = true) by
                    simp [hbal, bne])]
                  dsimp only
                  constructor
                  · intro _
                    exact ⟨hc, .inr ⟨hr, by simp [anchorOk, hs, hu], hn, hb,
                      fun _ => by rw [hbal, ← hf]⟩⟩
                  · intro _; rfl
                · rw [if_pos (show (regularEnded && (balance != prevB)) = true by
                    simp [hre, hbal, bne])]
                  dsimp only
                  constructor
                  · intro h; exact absurd h (by simp)
                  · rintro ⟨-, hr0 | ⟨-, -, -, -, hfin⟩⟩
                    · exact absurd hr0 hr
                    · rw [hf] at hfin
                      exact absurd (hfin hre) hbal
              · rw [if_neg (show ¬((regularEnded && (balance != prevB)) = true) by
                  simp [Bool.not_eq_true] at hre
                  simp [hre])]
                dsimp only
                constructor
                · intro _
                  exact ⟨hc, .inr ⟨hr, by simp [anchorOk, hs, hu], hn, hb,
                    fun h0 => absurd h0 hre⟩⟩
                · intro _; rfl
          · rw [if_pos (show (ueh != f.userHash) = true by simp [hu])]
            dsimp only
            constructor
            · intro h; exact absurd h (by simp)
            · rintro ⟨-, hr0 | ⟨-, ha, -⟩⟩
              · exact absurd hr0 hr
              · simp [anchorOk, hu] at ha
        · rw [if_pos (show (seh != f.serverHash) = true by simp [hs])]
          dsimp only
          constructor
          · intro h; exact absurd h (by simp)
          · rintro ⟨-, hr0 | ⟨-, ha, -⟩⟩
            · exact absurd hr0 hr
            · simp [anchorOk, hs] at ha
  · rw [if_pos (show (((bets.length : Int) != (roundId - (if regularEnded then 1 else 0)))) = true by
      simp [hc])]
    dsimp only
    constructor
    · intro h; exact absurd h (by simp)
    · rintro ⟨hc2, -⟩; exact absurd hc2 hc

/-- A record-count mismatch yields the count error, regardless of every
other argument (the count check runs first). -/
theorem verifyBets_count_err (p : Prims) (gameId : Int) (bets : List Bet) (roundId balance : Int)
    (seh ueh : String) (regularEnded : Bool) (ca sa : String) :
    (bets.length : Int) ≠ roundId - (if regularEnded then 1 else 0) →
      verifyBets p gameId bets roundId balance seh ueh regularEnded ca sa =
        .error (.invalidNumBets bets.length (roundId - (if regularEnded then 1 else 0))) := by
  intro hc
  unfold verifyBets verifyBetsRun
  dsimp only
  rw [if_pos (show (((bets.length : Int) != (roundId - (if regularEnded then 1 else 0)))) = true by
    simp [hc])]

/-- Exhaustive shape of the result: either success with `true`, or the
count error under a count mismatch, or some error that is not the count
error. -/
theorem verifyBets_result_cases (p : Prims) (gameId : Int) (bets : List Bet)
    (roundId balance : Int) (seh ueh : String) (regularEnded : Bool) (ca sa : String) :
    verifyBets p gameId bets roundId balance seh ueh regularEnded ca sa = .ok true
    ∨ ((bets.length : Int) ≠ roundId - (if regularEnded then 1 else 0)
        ∧ verifyBets p gameId bets roundId balance seh ueh regularEnded ca sa =
            .error (.invalidNumBets bets.length (roundId - (if regularEnded then 1 else 0))))
    ∨ ∃ e : VErr, verifyBets p gameId bets roundId balance seh ueh regularEnded ca sa = .error e
        ∧ ∀ x y : Int, e ≠ .invalidNumBets x y := by
  by_cases hc : (bets.length : Int) = roundId - (if regularEnded then 1 else 0)
  case neg =>
    exact .inr (.inl ⟨hc,
      verifyBets_count_err p gameId bets roundId balance seh ueh regularEnded ca sa hc⟩)
  case pos =>
    unfold verifyBets verifyBetsRun
    dsimp only
    rw [if_neg (show ¬((((bets.length : Int) != (roundId - (if regularEnded then 1 else 0)))) = true) by
      simp [hc])]
    by_cases hr : roundId = 0
    · rw [if_pos (show (roundId == (0 : Int)) = true by simp [hr])]
      exact .inl rfl
    · rw [if_neg (show ¬((roundId == (0 : Int)) = true) by simp [hr])]
      cases hrev : bets.reverse with
      | nil =>
        exact .inr (.inr ⟨.typeErrorUndefinedRead, rfl, by simp⟩)
      | cons f t =>
        dsimp only
        by_cases hs : seh = f.serverHash
        · rw [if_neg (show ¬((seh != f.serverHash) = true) by simp [hs])]
          by_cases hu : ueh = f.userHash
          · rw [if_neg (show ¬((ueh != f.userHash) = true) by simp [hu])]
            cases hloop : betLoop p ca sa balance none 0 (f :: t) with
            | error e =>
              dsimp only
              refine .inr (.inr ⟨e, rfl, fun x y hxy => ?_⟩)
              rw [hxy] at hloop
              exact betLoop_no_numBets p ca sa balance _ none 0 x y hloop
            | ok prevB =>
              dsimp only
              by_cases hfin : (regularEnded && (balance != prevB)) = true
              · rw [if_pos hfin]
                exact .inr (.inr ⟨.invalidSessionBalance prevB balance, rfl, by simp⟩)
              · rw [if_neg hfin]
                exact .inl rfl
          · rw [if_pos (show (ueh != f.userHash) = true by simp [hu])]
            exact .inr (.inr ⟨.invalidFirstUserHash, rfl, by simp⟩)
        · rw [if_pos (show (seh != f.serverHash) = true by simp [hs])]
          exact .inr (.inr ⟨.invalidFirstServerHash, rfl, by simp⟩)

/-- Whenever `verifyBets` returns a value (no throw), that value is
`true`; it never returns `false`. -/
theorem verifyBets_ok_true (p : Prims) (gameId : Int) (bets : List Bet) (roundId balance : Int)
    (seh ueh : String) (regularEnded : Bool) (ca sa : String) :
    ∀ b : Bool, verifyBets p gameId bets roundId balance seh ueh regularEnded ca sa = .ok b →
      b = true := by
  intro b h
  rcases verifyBets_result_cases p gameId bets roundId balance seh ueh regularEnded ca sa with
    h1 | ⟨-, h2⟩ | ⟨e, h3, -⟩
  · rw [h] at h1; exact Except.ok.inj h1
  · rw [h] at h2; exact absurd h2 (by simp)
  · rw [h] at h3; exact absurd h3 (by simp)

/-- When the record count matches, the count error can never be raised. -/
theorem verifyBets_no_count_err (p : Prims) (gameId : Int) (bets : List Bet)
    (roundId balance : Int) (seh ueh : String) (regularEnded : Bool) (ca sa : String) :
    (bets.length : Int) = roundId - (if regularEnded then 1 else 0) →
      ∀ e g : Int, verifyBets p gameId bets roundId balance seh ueh regularEnded ca sa ≠
        .error (.invalidNumBets e g) := by
  intro hc e g h
  rcases verifyBets_result_cases p gameId bets roundId balance seh ueh regularEnded ca sa with
    h1 | ⟨hc2, -⟩ | ⟨e2, h3, hne⟩
  · rw [h] at h1; exact absurd h1 (by simp)
  · exact hc2 hc
  · rw [h] at h3
    exact hne e g (Except.error.inj h3).symm

/-- On the main path (count check passed, at least one round, anchors
matching), the result of `verifyBets` is the loop result followed by the
conditional final-balance comparison. -/
theorem verifyBets_main_eq (p : Prims) (gameId : Int) (bets : List Bet)
    (roundId balance : Int) (seh ueh : String) (regularEnded : Bool) (ca sa : String)
    (hcount : (bets.length : Int) = roundId - (if regularEnded then 1 else 0))
    (hr : roundId ≠ 0)
    (hanchor : anchorOk seh ueh bets.reverse = true) :
    verifyBets p gameId bets roundId balance seh ueh regularEnded ca sa =
      (match betLoop p ca sa balance none 0 bets.reverse with
        | .error e => .error e
        | .ok prevBalance =>
          if regularEnded && (balance != prevBalance) then
            .error (.invalidSessionBalance prevBalance balance)
          else
            .ok true) := by
  unfold verifyBets verifyBetsRun
  dsimp only
  rw [if_neg (show ¬((((bets.length : Int) != (roundId - (if regularEnded then 1 else 0)))) = true) by
    simp [hcount])]
  rw [if_neg (show ¬((roundId == (0 : Int)) = true) by simp [hr])]
  cases hrev : bets.reverse with
  | nil => rw [hrev] at hanchor; simp [anchorOk] at hanchor
  | cons f t =>
    rw [hrev] at hanchor
    simp only [anchorOk, Bool.and_eq_true, beq_iff_eq] at hanchor
    obtain ⟨hs, hu⟩ := hanchor
    dsimp only
    rw [if_neg (show ¬((seh != f.serverHash) = true) by simp [hs])]
    rw [if_neg (show ¬((ueh != f.userHash) = true) by simp [hu])]
    cases hloop : betLoop p ca sa balance none 0 (f :: t) with
    | error e => rfl
    | ok prevB =>
      dsimp only
      by_cases hfin : (regularEnded && (balance != prevB)) = true
      · rw [if_pos hfin, if_pos hfin]
      · rw [if_neg hfin, if_neg hfin]

/-- Success implies every non-balance check holds on the chronological
record list (when no round was played, the list is empty and the claim is
trivial). -/
theorem verifyBets_ok_nonBalance (p : Prims) (gameId : Int) (bets : List Bet)
    (roundId balance : Int) (seh ueh : String) (regularEnded : Bool) (ca sa : String) :
    verifyBets p gameId bets roundId balance seh ueh regularEnded ca sa = .ok true →
      nonBalanceChecksOk p ca sa none bets.reverse = true := by
  intro h
  obtain ⟨hcount, h0 | ⟨-, -, hn, -, -⟩⟩ :=
    (verifyBets_ok_iff p gameId bets roundId balance seh ueh regularEnded ca sa).mp h
  · subst h0
    have hnil : bets = [] := by
      cases regularEnded
      · simpa using hcount
      · exfalso
        rw [if_pos rfl] at hcount
        omega
    subst hnil
    rfl
  · exact hn

/-- Success implies the declared pre-round balances replay from zero. -/
theorem verifyBets_ok_balances (p : Prims) (gameId : Int) (bets : List Bet)
    (roundId balance : Int) (seh ueh : String) (regularEnded : Bool) (ca sa : String) :
    verifyBets p gameId bets roundId balance seh ueh regularEnded ca sa = .ok true →
      balancesOk p 0 bets.reverse = true := by
  intro h
  obtain ⟨hcount, h0 | ⟨-, -, -, hb, -⟩⟩ :=
    (verifyBets_ok_iff p gameId bets roundId balance seh ueh regularEnded ca sa).mp h
  · subst h0
    have hnil : bets = [] := by
      cases regularEnded
      · simpa using hcount
      · exfalso
        rw [if_pos rfl] at hcount
        omega
    subst hnil
    rfl
  · exact hb

/-! Era-resolution lemmas. -/

/-- Era resolution on `[256, 572)`: second contract, signature version 1. -/
theorem resolveEra_era2 (gameId : Int) (h1 : 256 ≤ gameId) (h2 : gameId < 572) :
    resolveEra gameId = .ok ⟨CONTRACT_ADDRESS2, SERVER_ADDRESS_P0, 1⟩ := by
  have h256 : ¬(gameId < 256) := by omega
  have hv : gameId < 572 ∨ 638 ≤ gameId := Or.inl h2
  simp [resolveEra, getContractAddress, getSignatureVersion,
    NEW_EIP_GAME_ID, OLD_EIP_GAME_ID, h256, h2, hv]

/-- Era resolution on `[572, 638)`: third contract, signature version 2. -/
theorem resolveEra_era3 (gameId : Int) (h1 : 572 ≤ gameId) (h2 : gameId < 638) :
    resolveEra gameId = .ok ⟨CONTRACT_ADDRESS3, SERVER_ADDRESS_P0, 2⟩ := by
  have h256 : ¬(gameId < 256) := by omega
  have hn2 : ¬(gameId < 572) := by omega
  have hv : ¬(gameId < 572 ∨ 638 ≤ gameId) := by omega
  simp [resolveEra, getContractAddress, getSignatureVersion,
    NEW_EIP_GAME_ID, OLD_EIP_GAME_ID, h256, hn2, h2, hv]

/-- Era resolution on `[638, ∞)`: fourth contract, signature version 1. -/
theorem resolveEra_era4 (gameId : Int) (h1 : 638 ≤ gameId) :
    resolveEra gameId = .ok ⟨CONTRACT_ADDRESS4, SERVER_ADDRESS_P0, 1⟩ := by
  have h256 : ¬(gameId < 256) := by omega
  have hn2 : ¬(gameId < 572) := by omega
  have hn3 : ¬(gameId < 638) := by omega
  have hv : gameId < 572 ∨ 638 ≤ gameId := Or.inr h1
  simp [resolveEra, getContractAddress, getSignatureVersion,
    NEW_EIP_GAME_ID, OLD_EIP_GAME_ID, h256, hn2, hn3, hv]

/-! Claim theorems. -/

/-- C1: for every non-empty ordered bet sequence accepted by the count
check, successful verification forces every record's seed commitments
(`hash(serverSeed) = serverHash`, `hash(userSeed) = userHash`), the
anchor equalities of the earliest record against the session's published
chain heads, and every later record's hash-chain link
(`hash(record.hash) = previousRecord.hash`) on both sides; when any of
these is violated the verifier never returns a value, so the whole
session is invalid. -/
theorem c1_hash_chain_requirements (p : Prims) (gameId : Int) (bets : List Bet)
    (roundId balance : Int) (seh ueh : String) (regularEnded : Bool) (ca sa : String)
    (hne : bets ≠ [])
    (hcount : (bets.length : Int) = roundId - (if regularEnded then 1 else 0)) :
    (verifyBets p gameId bets roundId balance seh ueh regularEnded ca sa = .ok true →
      (seedsOk p bets.reverse && anchorOk seh ueh bets.reverse
        && chainLinks p bets.reverse) = true)
    ∧ ((seedsOk p bets.reverse && anchorOk seh ueh bets.reverse
        && chainLinks p bets.reverse) = false →
      ∀ b : Bool,
        verifyBets p gameId bets roundId balance seh ueh regularEnded ca sa ≠ .ok b) := by
  have hmain : verifyBets p gameId bets roundId balance seh ueh regularEnded ca sa = .ok true →
      (seedsOk p bets.reverse && anchorOk seh ueh bets.reverse
        && chainLinks p bets.reverse) = true := by
    intro h
    obtain ⟨hc2, h0 | ⟨-, ha, hn, -, -⟩⟩ :=
      (verifyBets_ok_iff p gameId bets roundId balance seh ueh regularEnded ca sa).mp h
    · exfalso
      subst h0
      cases regularEnded
      · exact hne (by simpa using hc2)
      · rw [if_pos rfl] at hc2
        have : 0 < bets.length := List.length_pos.mpr hne
        omega
    · rw [Bool.and_eq_true, Bool.and_eq_true]
      exact ⟨⟨nonBalance_seedsOk p ca sa bets.reverse none hn, ha⟩,
        nonBalance_chainLinks p ca sa bets.reverse none hn⟩
  refine ⟨hmain, fun hbad b h => ?_⟩
  have hb := verifyBets_ok_true p gameId bets roundId balance seh ueh regularEnded ca sa b h
  subst hb
  rw [hmain h] at hbad
  simp at hbad

/-- Witness for C1 at the consistent two-bet test session. -/
theorem c1_hash_chain_requirements_witness :
    (seedsOk pTest betsNewestFirst.reverse
      && anchorOk "hhs" "hhu" betsNewestFirst.reverse
      && chainLinks pTest betsNewestFirst.reverse) = true :=
  (c1_hash_chain_requirements pTest 300 betsNewestFirst 3 20 "hhs" "hhu" true "ca" "sa"
    (by decide) (by decide)).1 (by decide)

/-- C2: with the count check passed, at least one round, matching anchors
and every non-balance check passing, the verifier replays declared
pre-round balances from zero, advancing via `calcNewBalance`: a declared
balance differing from the running balance yields the balance-mismatch
error; otherwise, when the session ended normally, the final running
balance must equal the settled balance (failing with the final-balance
error on difference), and when it did not end normally the final
comparison is skipped and verification succeeds. -/
theorem c2_balance_replay (p : Prims) (gameId : Int) (bets : List Bet)
    (roundId balance : Int) (seh ueh : String) (regularEnded : Bool) (ca sa : String)
    (hcount : (bets.length : Int) = roundId - (if regularEnded then 1 else 0))
    (hr : roundId ≠ 0)
    (hanchor : anchorOk seh ueh bets.reverse = true)
    (hother : nonBalanceChecksOk p ca sa none bets.reverse = true) :
    (balancesOk p 0 bets.reverse = false →
      ∃ d, verifyBets p gameId bets roundId balance seh ueh regularEnded ca sa =
        .error (.invalidBalance d balance))
    ∧ (balancesOk p 0 bets.reverse = true → regularEnded = true →
        balance = foldBalance p 0 bets.reverse →
        verifyBets p gameId bets roundId balance seh ueh regularEnded ca sa = .ok true)
    ∧ (balancesOk p 0 bets.reverse = true → regularEnded = true →
        balance ≠ foldBalance p 0 bets.reverse →
        verifyBets p gameId bets roundId balance seh ueh regularEnded ca sa =
          .error (.invalidSessionBalance (foldBalance p 0 bets.reverse) balance))
    ∧ (balancesOk p 0 bets.reverse = true → regularEnded = false →
        verifyBets p gameId bets roundId balance seh ueh regularEnded ca sa = .ok true) := by
  rw [verifyBets_main_eq p gameId bets roundId balance seh ueh regularEnded ca sa
    hcount hr hanchor]
  refine ⟨?_, ?_, ?_, ?_⟩
  · intro hbal
    obtain ⟨d, hd⟩ := betLoop_balance_err p ca sa balance bets.reverse none 0 hother hbal
    rw [hd]
    exact ⟨d, rfl⟩
  · intro hbal hre hfin
    rw [(betLoop_ok_iff p ca sa balance bets.reverse none 0 _).mpr ⟨hother, hbal, rfl⟩]
    simp [hre, hfin, bne]
  · intro hbal hre hfin
    rw [(betLoop_ok_iff p ca sa balance bets.reverse none 0 _).mpr ⟨hother, hbal, rfl⟩]
    simp [hre, hfin, bne]
  · intro hbal hre
    rw [(betLoop_ok_iff p ca sa balance bets.reverse none 0 _).mpr ⟨hother, hbal, rfl⟩]
    simp [hre]

/-- Witness for C2 at the consistent two-bet test session (normal end,
settled balance equal to the replayed balance). -/
theorem c2_balance_replay_witness :
    verifyBets pTest 300 betsNewestFirst 3 20 "hhs" "hhu" true "ca" "sa" = .ok true :=
  (c2_balance_replay pTest 300 betsNewestFirst 3 20 "hhs" "hhu" true "ca" "sa"
    (by decide) (by decide) (by decide) (by decide)).2.1 (by decide) rfl (by decide)

/-- C3: under the era addresses selected by `verifyGameSession` for the
session's game id, success forces, for every record, a valid server
signature against the era's server address and a valid user signature
against the record's own user address, over the payload `signedDataOf`
(exactly the eight signed fields `roundId, gameType, num, value, balance,
serverHash, userHash, gameId`) with the chain id and the contract address
passed as separate domain arguments; a failing server (resp. user)
signature aborts the loop with the invalid-server (resp. invalid-player)
signature error, whose message names the failing round id. -/
theorem c3_signatures (p : Prims) (gameId : Int) (bets : List Bet)
    (roundId balance : Int) (seh ueh : String) (regularEnded : Bool) :
    (verifyBets p gameId bets roundId balance seh ueh regularEnded
        (contractServerFor gameId).1 (contractServerFor gameId).2 = .ok true →
      sigsOk p (contractServerFor gameId).1 (contractServerFor gameId).2 bets.reverse = true)
    ∧ (∀ (bal prevB : Int) (prev : Option (String × String)) (bet : Bet) (rest : List Bet),
        sigOkServer p (contractServerFor gameId).1 (contractServerFor gameId).2 bet = false →
          betLoop p (contractServerFor gameId).1 (contractServerFor gameId).2 bal prev prevB
            (bet :: rest) = .error (.invalidServerSig bet.roundId))
    ∧ (∀ (bal prevB : Int) (prev : Option (String × String)) (bet : Bet) (rest : List Bet),
        sigOkServer p (contractServerFor gameId).1 (contractServerFor gameId).2 bet = true →
        sigOkUser p (contractServerFor gameId).1 bet = false →
          betLoop p (contractServerFor gameId).1 (contractServerFor gameId).2 bal prev prevB
            (bet :: rest) = .error (.invalidPlayerSig bet.roundId))
    ∧ (∀ r : Int, VErr.message (.invalidServerSig r) =
        "Invalid server signature for bet with roundId: " ++ toString r)
    ∧ (∀ r : Int, VErr.message (.invalidPlayerSig r) =
        "Invalid player signature for bet with roundId: " ++ toString r) := by
  refine ⟨?_, ?_, ?_, fun r => rfl, fun r => rfl⟩
  · intro h
    exact nonBalance_sigsOk p _ _ bets.reverse none
      (verifyBets_ok_nonBalance p gameId bets roundId balance seh ueh regularEnded _ _ h)
  · intro bal prevB prev bet rest h1
    rw [betLoop_cons]
    simp [h1]
  · intro bal prevB prev bet rest h1 h2
    rw [betLoop_cons]
    simp [h1, h2]

/-- Witness for C3 at the consistent two-bet test session. -/
theorem c3_signatures_witness :
    sigsOk pTest (contractServerFor 300).1 (contractServerFor 300).2
      betsNewestFirst.reverse = true :=
  (c3_signatures pTest 300 betsNewestFirst 3 20 "hhs" "hhu" true).1 (by decide)

/-- C4: success forces every record's declared `resultNum` to equal
`calcResultNumber(gameType, serverSeed, userSeed, num)`, the recomputed
outcome from both revealed seeds and the bet's declared parameters
including `num`; and when a record's declared result differs while all
earlier checks of that record pass, the loop fails immediately with the
bad-outcome error, before looking at the balance or at later records. -/
theorem c4_outcome_recomputation (p : Prims) (gameId : Int) (bets : List Bet)
    (roundId balance : Int) (seh ueh : String) (regularEnded : Bool) (ca sa : String) :
    (verifyBets p gameId bets roundId balance seh ueh regularEnded ca sa = .ok true →
      outcomesOk p bets.reverse = true)
    ∧ (∀ (bal prevB : Int) (prev : Option (String × String)) (bet : Bet) (rest : List Bet),
        sigOkServer p ca sa bet = true → sigOkUser p ca bet = true →
        seedOkUser p bet = true → seedOkServer p bet = true →
        chainUserBad p prev bet = false → chainServerBad p prev bet = false →
        outcomeOk p bet = false →
          betLoop p ca sa bal prev prevB (bet :: rest) =
            .error (.invalidNumber bet.resultNum
              (p.calcResultNumber bet.gameType bet.serverSeed bet.userSeed (some bet.num)))) := by
  refine ⟨?_, ?_⟩
  · intro h
    exact nonBalance_outcomesOk p ca sa bets.reverse none
      (verifyBets_ok_nonBalance p gameId bets roundId balance seh ueh regularEnded ca sa h)
  · intro bal prevB prev bet rest h1 h2 h3 h4 h5 h6 h7
    rw [betLoop_cons]
    simp [h1, h2, h3, h4, h5, h6, h7]

/-- Witness for C4 at the consistent two-bet test session. -/
theorem c4_outcome_recomputation_witness :
    outcomesOk pTest betsNewestFirst.reverse = true :=
  (c4_outcome_recomputation pTest 300 betsNewestFirst 3 20 "hhs" "hhu" true "ca" "sa").1
    (by decide)

/-- C5: the expected record count is `roundId` minus one when the session
ended normally and `roundId` exactly otherwise; a differing list length
yields the count-mismatch error regardless of every other argument (the
check runs before any other), and a matching length makes the
count-mismatch error unreachable. -/
theorem c5_count_check_first (p : Prims) (gameId : Int) (bets : List Bet)
    (roundId balance : Int) (seh ueh : String) (regularEnded : Bool) (ca sa : String) :
    ((bets.length : Int) ≠ roundId - (if regularEnded then 1 else 0) →
      verifyBets p gameId bets roundId balance seh ueh regularEnded ca sa =
        .error (.invalidNumBets bets.length (roundId - (if regularEnded then 1 else 0))))
    ∧ ((bets.length : Int) = roundId - (if regularEnded then 1 else 0) →
      ∀ e g : Int, verifyBets p gameId bets roundId balance seh ueh regularEnded ca sa ≠
        .error (.invalidNumBets e g)) :=
  ⟨verifyBets_count_err p gameId bets roundId balance seh ueh regularEnded ca sa,
   verifyBets_no_count_err p gameId bets roundId balance seh ueh regularEnded ca sa⟩

/-- Witness for C5: an empty list against two expected rounds raises the
count error. -/
theorem c5_count_check_first_witness :
    verifyBets pTest 300 [] 2 0 "x" "y" false "ca" "sa" = .error (.invalidNumBets 0 2) := by
  have := (c5_count_check_first pTest 300 [] 2 0 "x" "y" false "ca" "sa").1 (by decide)
  simpa using this

/-- C6 (code bug): a normally ended session with `roundId = 1` and an
empty record list passes the count check (expected count zero) but then
crashes with a TypeError reading `bets[0].serverHash` of `undefined`,
instead of succeeding trivially; only the `roundId = 0` case returns
trivial success. -/
theorem c6_zero_rounds_code_bug :
    verifyBets pTest 300 [] 1 0 "x" "y" true "ca" "sa" = .error .typeErrorUndefinedRead
    ∧ verifyBets pTest 300 [] 0 0 "x" "y" false "ca" "sa" = .ok true :=
  ⟨rfl, rfl⟩

/-- C7: era resolution fails with the unsupported-session error for every
game id below 256, and for every id at or above 256 exactly one row of
the contiguous, non-overlapping threshold table matches, and the resolved
era (contract identity, server identity, signature version) is that
row's. -/
theorem c7_era_resolution (gameId : Int) :
    (gameId < 256 → resolveEra gameId =
      .error "Verification not supported for games below game id 256!")
    ∧ (256 ≤ gameId →
        ∃ row : Int × Option Int × Era,
          (row ∈ eraTable ∧ inThreshold row.1 row.2.1 gameId = true
            ∧ resolveEra gameId = .ok row.2.2)
          ∧ ∀ row2 : Int × Option Int × Era,
              (row2 ∈ eraTable ∧ inThreshold row2.1 row2.2.1 gameId = true
                ∧ resolveEra gameId = .ok row2.2.2) → row2 = row) := by
  constructor
  · intro h
    unfold resolveEra getContractAddress
    rw [if_pos h]
  · intro h
    by_cases h2 : gameId < 572
    · refine ⟨(256, some 572, ⟨CONTRACT_ADDRESS2, SERVER_ADDRESS_P0, 1⟩),
        ⟨by simp [eraTable], by simp [inThreshold, h, h2], resolveEra_era2 gameId h h2⟩, ?_⟩
      rintro row2 ⟨hmem, hin, -⟩
      simp only [eraTable, List.mem_cons, List.not_mem_nil, or_false] at hmem
      rcases hmem with h1 | h1 | h1
      · exact h1
      · subst h1; simp [inThreshold] at hin; omega
      · subst h1; simp [inThreshold] at hin; omega
    · by_cases h3 : gameId < 638
      · refine ⟨(572, some 638, ⟨CONTRACT_ADDRESS3, SERVER_ADDRESS_P0, 2⟩),
          ⟨by simp [eraTable], by simp [inThreshold, h2, h3]; omega,
            resolveEra_era3 gameId (by omega) h3⟩, ?_⟩
        rintro row2 ⟨hmem, hin, -⟩
        simp only [eraTable, List.mem_cons, List.not_mem_nil, or_false] at hmem
        rcases hmem with h1 | h1 | h1
        · subst h1; simp [inThreshold] at hin; omega
        · exact h1
        · subst h1; simp [inThreshold] at hin; omega
      · refine ⟨(638, none, ⟨CONTRACT_ADDRESS4, SERVER_ADDRESS_P0, 1⟩),
          ⟨by simp [eraTable], by simp [inThreshold]; omega,
            resolveEra_era4 gameId (by omega)⟩, ?_⟩
        rintro row2 ⟨hmem, hin, -⟩
        simp only [eraTable, List.mem_cons, List.not_mem_nil, or_false] at hmem
        rcases hmem with h1 | h1 | h1
        · subst h1; simp [inThreshold] at hin; omega
        · subst h1; simp [inThreshold] at hin; omega
        · exact h1

/-- Witness for C7: a game id below the minimum threshold is rejected. -/
theorem c7_era_resolution_witness :
    resolveEra 100 = .error "Verification not supported for games below game id 256!" :=
  (c7_era_resolution 100).1 (by decide)

/-- C8 (counterexample): a server-side chain break at round 2 and a
user-side chain break at round 3 both abort with the identical
`invalidHashChain` error, whose message is the fixed string
`"Invalid hash chain!"` — it names neither the offending round id nor the
side, refuting the claimed attribution. -/
theorem c8_attribution_counterexample :
    verifyBets pTest 300 [betBServerBreak, betA] 3 20 "hhs" "hhu" true "ca" "sa" =
      .error .invalidHashChain
    ∧ verifyBets pTest 300 [betC3UserBreak, betB3, betA3] 4 30 "hhhs" "hhhu" true "ca" "sa" =
      .error .invalidHashChain
    ∧ VErr.message .invalidHashChain = "Invalid hash chain!" :=
  ⟨rfl, rfl, rfl⟩

/-- C8 (amended): every verification failure aborts the whole run at the
first violated check; signature and seed errors name the failing round id
in their message, but a hash-chain-link violation on either side aborts
with the fixed `invalidHashChain` error whose message names neither the
round id nor the side. -/
theorem c8_first_error_attribution (p : Prims) (ca sa : String) (bal prevB : Int)
    (uh sh : String) (bet : Bet) (rest : List Bet)
    (h1 : sigOkServer p ca sa bet = true) (h2 : sigOkUser p ca bet = true)
    (h3 : seedOkUser p bet = true) (h4 : seedOkServer p bet = true)
    (h5 : chainUserBad p (some (uh, sh)) bet = true
      ∨ chainServerBad p (some (uh, sh)) bet = true) :
    betLoop p ca sa bal (some (uh, sh)) prevB (bet :: rest) = .error .invalidHashChain
    ∧ VErr.message .invalidHashChain = "Invalid hash chain!"
    ∧ (∀ r : Int, VErr.message (.invalidUserSeed r) =
        "Invalid user seed for bet with roundId: " ++ toString r)
    ∧ (∀ r : Int, VErr.message (.invalidServerSeed r) =
        "Invalid server seed for bet with roundId: " ++ toString r) := by
  refine ⟨?_, rfl, fun r => rfl, fun r => rfl⟩
  rw [betLoop_cons]
  rcases h5 with h5 | h5
  · simp [h1, h2, h3, h4, h5]
  · by_cases hcu : chainUserBad p (some (uh, sh)) bet = true
    · simp [h1, h2, h3, h4, hcu]
    · simp only [Bool.not_eq_true] at hcu
      simp [h1, h2, h3, h4, hcu, h5]

/-- Witness for C8 (amended) at the server-side chain break. -/
theorem c8_first_error_attribution_witness :
    betLoop pTest "ca" "sa" 20 (some ("hhu", "hhs")) 10 [betBServerBreak] =
      .error .invalidHashChain :=
  (c8_first_error_attribution pTest "ca" "sa" 20 10 "hhu" "hhs" betBServerBreak []
    (by decide) (by decide) (by decide) (by decide) (.inr (by decide))).1

/-- C9 (counterexample): after a call on the consistent two-bet session
the caller's record list is no longer in its original order — the
verifier reversed it in place, refuting the claimed absence of input
mutation. -/
theorem c9_mutation_counterexample :
    betsAfterVerify pTest 300 betsNewestFirst 3 20 "hhs" "hhu" true "ca" "sa" ≠
      betsNewestFirst := by
  decide

/-- C9 (amended): the verifier leaves the endpoint arguments untouched
and its verdict is a function of its arguments, but the supplied record
list is reversed in place exactly when the count check passes and the
round count is nonzero; otherwise it is left unchanged. -/
theorem c9_reverse_in_place (p : Prims) (gameId : Int) (bets : List Bet)
    (roundId balance : Int) (seh ueh : String) (regularEnded : Bool) (ca sa : String) :
    betsAfterVerify p gameId bets roundId balance seh ueh regularEnded ca sa =
      if (bets.length : Int) = roundId - (if regularEnded then 1 else 0) ∧ roundId ≠ 0 then
        bets.reverse
      else bets := by
  unfold betsAfterVerify verifyBetsRun
  dsimp only
  by_cases hc : (bets.length : Int) = roundId - (if regularEnded then 1 else 0)
  · rw [if_neg (show ¬((((bets.length : Int) != (roundId - (if regularEnded then 1 else 0)))) = true) by
      simp [hc])]
    by_cases hr : roundId = 0
    · rw [if_pos (show (roundId == (0 : Int)) = true by simp [hr])]
      rw [if_neg (show ¬((bets.length : Int) = roundId - (if regularEnded then 1 else 0) ∧ roundId ≠ 0) by
        simp [hr])]
    · rw [if_pos (show (bets.length : Int) = roundId - (if regularEnded then 1 else 0) ∧ roundId ≠ 0 from
        ⟨hc, hr⟩)]
      rw [if_neg (show ¬((roundId == (0 : Int)) = true) by simp [hr])]
      cases hrev : bets.reverse with
      | nil => rfl
      | cons f t =>
        dsimp only
        by_cases hs : (seh != f.serverHash) = true
        · rw [if_pos hs]
        · rw [if_neg hs]
          by_cases hu : (ueh != f.userHash) = true
          · rw [if_pos hu]
          · rw [if_neg hu]
            cases hloop : betLoop p ca sa balance none 0 (f :: t) with
            | error e => rfl
            | ok prevB =>
              dsimp only
              by_cases hfin : (regularEnded && (balance != prevB)) = true
              · rw [if_pos hfin]
              · rw [if_neg hfin]
  · rw [if_pos (show (((bets.length : Int) != (roundId - (if regularEnded then 1 else 0)))) = true by
      simp [hc])]
    rw [if_neg (show ¬((bets.length : Int) = roundId - (if regularEnded then 1 else 0) ∧ roundId ≠ 0) by
      simp [hc])]

/-- C10: whenever `verifyBets` returns at all (rather than throwing) it
returns `true` and never `false`, so the caller's branch handling a falsy
return is unreachable. -/
theorem c10_returns_true (p : Prims) (gameId : Int) (bets : List Bet)
    (roundId balance : Int) (seh ueh : String) (regularEnded : Bool) (ca sa : String) :
    ∀ b : Bool, verifyBets p gameId bets roundId balance seh ueh regularEnded ca sa = .ok b →
      b = true :=
  verifyBets_ok_true p gameId bets roundId balance seh ueh regularEnded ca sa

/-- Witness for C10 at a concrete returning call. -/
theorem c10_returns_true_witness : true = true :=
  c10_returns_true pTest 300 betsNewestFirst 3 20 "hhs" "hhu" true "ca" "sa" true (by decide)

end Verifier
